import Mathlib

/-!
Verification of the loss1 sequence-to-sequence transformer training repository
against its natural-language specification.

The Python sources (Data.py, Learning.py, transformer/Model.py) are shallowly
embedded below: pure functions become Lean functions, fatal sys.exit calls and
raised exceptions become Except.error, the RNG shuffles and the tokenizer are
explicit parameters (they are external collaborators), and float tensors are
modelled as exact reals where the claims under scrutiny are structural.
-/

namespace Loss1

/-! ### Vocab (Data.py, class Vocab, lines 43-144) -/

/-- The five reserved symbols bound to indices 0-4 (Data.py lines 46-55). -/
def reserved5 : List String := ["<pad>", "<unk>", "<bos>", "<eos>", "<sep>"]

/-- Vocab state: the idx_to_tok list and the tok_to_idx dict.  The dict is an
association list; its keys are unique because read skips duplicates before
inserting (Data.py lines 95-97). -/
structure VocabState where
  idx_to_tok : List String
  tok_to_idx : List (String × Nat)
deriving DecidableEq

/-- Python str.rstrip(): drop trailing whitespace (Data.py line 94). -/
def rstrip (s : String) : String :=
  String.mk ((s.data.reverse.dropWhile Char.isWhitespace).reverse)

/-- Python's test `' ' in tok` (Data.py line 98): a one-character substring is
contained in a string exactly when that character occurs in it. -/
def containsSpace (s : String) : Bool := s.data.any (fun c => c == ' ')

/-- One iteration of Vocab.read's line loop (Data.py lines 93-102): strip the
line; skip it when already present, or malformed (internal blank or empty);
otherwise append it to idx_to_tok and bind it in tok_to_idx to the dict's
current size. -/
def vocabReadStep (st : VocabState) (l : String) : VocabState :=
  let tok := rstrip l
  if (st.tok_to_idx.lookup tok).isSome then st
  else if containsSpace tok ∨ tok.length = 0 then st
  else { idx_to_tok := st.idx_to_tok ++ [tok],
         tok_to_idx := (tok, st.tok_to_idx.length) :: st.tok_to_idx }

/-- One of the reserved-slot checks run after reading (Data.py lines 104-118).
Indexing a too-short idx_to_tok list is itself a fatal IndexError. -/
def checkReservedAt (v : List String) (i : Nat) (s : String) : Except String Unit :=
  match v.get? i with
  | none => Except.error "IndexError"
  | some t =>
    if t = s then Except.ok () else Except.error ("Vocabulary idx reserved for " ++ s)

/-- The five reserved-slot checks, in source order (Data.py lines 104-118). -/
def checkReserved (v : List String) : Except String Unit := do
  let _ ← checkReservedAt v 0 "<pad>"
  let _ ← checkReservedAt v 1 "<unk>"
  let _ ← checkReservedAt v 2 "<bos>"
  let _ ← checkReservedAt v 3 "<eos>"
  checkReservedAt v 4 "<sep>"

/-- Vocab.read (Data.py lines 87-119), taking the vocabulary file's lines. -/
def vocabRead (lines : List String) : Except String VocabState :=
  let st := lines.foldl vocabReadStep { idx_to_tok := [], tok_to_idx := [] }
  match checkReserved st.idx_to_tok with
  | Except.ok _ => Except.ok st
  | Except.error e => Except.error e

/-- Vocab.__getitem__ on a string (Data.py lines 82-84): an absent token maps
to idx_unk = 1, never an error. -/
def vocabGetIdx (v : VocabState) (s : String) : Nat :=
  match v.tok_to_idx.lookup s with
  | some i => i
  | none => 1

/-- Vocab.__getitem__ on an index (Data.py lines 77-81): an out-of-range index
is fatal. -/
def vocabGetTok (v : VocabState) (i : Nat) : Except String String :=
  if h : i < v.idx_to_tok.length then Except.ok (v.idx_to_tok.get ⟨i, h⟩)
  else Except.error "Key not found in vocab"

/-- Well-formedness maintained by the read loop: the dict and the list grow in
lockstep, and every dict binding points at its token's slot in the list. -/
def VocabInv (st : VocabState) : Prop :=
  st.tok_to_idx.length = st.idx_to_tok.length ∧
  ∀ t i, st.tok_to_idx.lookup t = some i → st.idx_to_tok.get? i = some t

lemma vocabInv_step (st : VocabState) (l : String) (h : VocabInv st) :
    VocabInv (vocabReadStep st l) := by
  by_cases h1 : (st.tok_to_idx.lookup (rstrip l)).isSome
  · unfold vocabReadStep
    simpa [h1] using h
  · by_cases h2 : containsSpace (rstrip l) ∨ (rstrip l).length = 0
    · unfold vocabReadStep
      simpa [h1, h2] using h
    · have hstep : vocabReadStep st l =
          { idx_to_tok := st.idx_to_tok ++ [rstrip l],
            tok_to_idx := (rstrip l, st.tok_to_idx.length) :: st.tok_to_idx } := by
        unfold vocabReadStep
        simp [h1, h2]
      rw [hstep]
      constructor
      · simp [h.1]
      · intro t i hl
        by_cases ht : t = rstrip l
        · subst ht
          simp [List.lookup] at hl
          subst hl
          simp [h.1, List.get?_concat_length]
        · have hbe : (t == rstrip l) = false := beq_false_of_ne ht
          simp only [List.lookup, hbe] at hl
          have hold := h.2 t i hl
          have hlt : i < st.idx_to_tok.length := (List.get?_eq_some.mp hold).1
          rw [List.get?_append hlt]
          exact hold

lemma vocabInv_fold (lines : List String) :
    ∀ (st : VocabState), VocabInv st → VocabInv (lines.foldl vocabReadStep st) := by
  induction lines with
  | nil => intro st h; simpa using h
  | cons l rest ih =>
    intro st h
    simpa using ih (vocabReadStep st l) (vocabInv_step st l h)

/-- Claim C7: for every vocabulary accepted by Vocab.read, looking up the index
of any token present in it and then looking up the token at that index returns
the same token, and looking up the index of any absent token returns the
unknown index 1, never an error. -/
theorem claim_c7_vocab_roundtrip (lines : List String) (v : VocabState)
    (hv : vocabRead lines = Except.ok v) :
    (∀ t, (v.tok_to_idx.lookup t).isSome →
        vocabGetTok v (vocabGetIdx v t) = Except.ok t) ∧
    (∀ t, v.tok_to_idx.lookup t = none → vocabGetIdx v t = 1) := by
  have hval : v = lines.foldl vocabReadStep { idx_to_tok := [], tok_to_idx := [] } := by
    unfold vocabRead at hv
    cases hcr : checkReserved (lines.foldl vocabReadStep
        { idx_to_tok := [], tok_to_idx := [] }).idx_to_tok with
    | ok u => simp [hcr] at hv; exact hv.symm
    | error e => simp [hcr] at hv
  have hinv : VocabInv v := by
    rw [hval]
    exact vocabInv_fold lines _ (by constructor <;> simp [VocabInv])
  constructor
  · intro t ht
    obtain ⟨i, hi⟩ := Option.isSome_iff_exists.mp ht
    have hget := hinv.2 t i hi
    obtain ⟨hlt, hgt⟩ := List.get?_eq_some.mp hget
    have hidx : vocabGetIdx v t = i := by simp [vocabGetIdx, hi]
    rw [hidx]
    simp only [vocabGetTok, dif_pos hlt]
    exact congrArg Except.ok hgt
  · intro t ht
    simp [vocabGetIdx, ht]

/-- The vocabulary state built by reading the file with lines
pad/unk/bos/eos/sep/hello, used as the concrete witness input for claim C7. -/
def vocabW : VocabState :=
  { idx_to_tok := ["<pad>", "<unk>", "<bos>", "<eos>", "<sep>", "hello"],
    tok_to_idx :=
      [("hello", 5), ("<sep>", 4), ("<eos>", 3), ("<bos>", 2), ("<unk>", 1), ("<pad>", 0)] }

/-- Witness for claim C7 at a concrete vocabulary file. -/
theorem claim_c7_vocab_roundtrip_witness :
    vocabGetTok vocabW (vocabGetIdx vocabW "hello") = Except.ok "hello" := by
  exact (claim_c7_vocab_roundtrip ["<pad>", "<unk>", "<bos>", "<eos>", "<sep>", "hello"]
    vocabW (by rfl)).1 "hello" (by decide)

/-! ### Vocab.build (Data.py lines 122-144) -/

/-- Python sorted(items, key=frequency, reverse=True) is a stable descending
sort by frequency; insertionSort with this total preorder is likewise stable
(ties keep their first-encounter order). -/
def sortByFrq (l : List (String × Nat)) : List (String × Nat) :=
  List.insertionSort (fun a b => b.2 ≤ a.2) l

/-- The emission loop of Vocab.build (Data.py lines 138-143): n starts at 5
(the already-printed reserved symbols) and the loop breaks when n equals
max_size or the candidate's frequency falls below min_freq. -/
def vocabBuildEmit (n maxSize minFreq : Nat) : List (String × Nat) → List String
  | [] => []
  | (tok, frq) :: rest =>
    if n = maxSize ∨ frq < minFreq then []
    else tok :: vocabBuildEmit (n + 1) maxSize minFreq rest

/-- Vocab.build (Data.py lines 122-144).  Tokenization and frequency counting
consume stdin through the external tokenizer; their result is modelled as the
token-to-frequency association list in first-encounter order. -/
def vocabBuild (tokFrq : List (String × Nat)) (minFreq maxSize : Nat) : List String :=
  reserved5 ++ vocabBuildEmit 5 maxSize minFreq (sortByFrq tokFrq)

lemma vocabBuildEmit_of_lt (mf : Nat) :
    ∀ (l : List (String × Nat)) (n ms : Nat), ms < n →
      vocabBuildEmit n ms mf l = (l.takeWhile (fun t => mf ≤ t.2)).map (fun t => t.1) := by
  intro l
  induction l with
  | nil => intro n ms h; rfl
  | cons hd rest ih =>
    intro n ms h
    obtain ⟨tok, frq⟩ := hd
    by_cases hf : frq < mf
    · simp [vocabBuildEmit, hf, List.takeWhile_cons, Nat.not_le.mpr hf]
    · have hle : mf ≤ frq := Nat.not_lt.mp hf
      simp [vocabBuildEmit, hf, Nat.ne_of_gt h, List.takeWhile_cons, hle,
        ih (n + 1) ms (Nat.lt_succ_of_lt h)]

lemma vocabBuildEmit_of_le (mf : Nat) :
    ∀ (l : List (String × Nat)) (n ms : Nat), n ≤ ms →
      vocabBuildEmit n ms mf l
        = ((l.takeWhile (fun t => mf ≤ t.2)).take (ms - n)).map (fun t => t.1) := by
  intro l
  induction l with
  | nil => intro n ms h; simp [vocabBuildEmit]
  | cons hd rest ih =>
    intro n ms h
    obtain ⟨tok, frq⟩ := hd
    by_cases hstop : n = ms
    · subst hstop
      simp [vocabBuildEmit]
    · have hlt : n < ms := Nat.lt_of_le_of_ne h hstop
      by_cases hf : frq < mf
      · simp [vocabBuildEmit, hf, List.takeWhile_cons, Nat.not_le.mpr hf]
      · have hle : mf ≤ frq := Nat.not_lt.mp hf
        have hsub : ms - n = (ms - (n + 1)) + 1 := by omega
        simp [vocabBuildEmit, hf, hstop, List.takeWhile_cons, hle, hsub,
          ih (n + 1) ms hlt]

/-- Counterexample to claim C6 as stated: with max_size = 2 (nonzero) and the
single token "a" of frequency 1 at min_freq 1, Vocab.build emits 6 entries, not
at most max_size = 2: the counter starts at 5 and is compared by equality, so
a max_size below 5 never stops the loop. -/
theorem claim_c6_counterexample :
    ¬ (vocabBuild [("a", 1)] 1 2).length ≤ 2 := by decide

/-- Claim C6, amended: Vocab.build emits the 5 reserved symbols first, then the
tokens in stable descending-frequency order, stopping once max_size total
entries have been emitted or the next candidate's frequency is below min_freq;
a max_size of 0 means unbounded output, and so does any max_size below 5,
because the emission counter starts at 5 and is tested for equality. -/
theorem claim_c6_vocab_build (tokFrq : List (String × Nat)) (minFreq maxSize : Nat) :
    vocabBuild tokFrq minFreq maxSize
      = reserved5 ++
        (if 5 ≤ maxSize
          then (((sortByFrq tokFrq).takeWhile (fun t => minFreq ≤ t.2)).take
            (maxSize - 5)).map (fun t => t.1)
          else ((sortByFrq tokFrq).takeWhile (fun t => minFreq ≤ t.2)).map (fun t => t.1)) ∧
    List.Sorted (fun a b => b.2 ≤ a.2) (sortByFrq tokFrq) ∧
    (sortByFrq tokFrq).Perm tokFrq := by
  refine ⟨?_, ?_, ?_⟩
  · unfold vocabBuild
    by_cases h : 5 ≤ maxSize
    · simp only [h, if_true]
      rw [vocabBuildEmit_of_le minFreq (sortByFrq tokFrq) 5 maxSize h]
    · simp only [h, if_false]
      rw [vocabBuildEmit_of_lt minFreq (sortByFrq tokFrq) 5 maxSize (by omega)]
  · haveI : IsTotal (String × Nat) (fun a b => b.2 ≤ a.2) :=
      ⟨fun a b => Nat.le_total b.2 a.2⟩
    haveI : IsTrans (String × Nat) (fun a b => b.2 ≤ a.2) :=
      ⟨fun a b c hab hbc => Nat.le_trans hbc hab⟩
    exact List.sorted_insertionSort _ _
  · exact List.perm_insertionSort _ _

/-! ### Dataset (Data.py, class Dataset, lines 151-256) -/

/-- numpy max over a list of lengths.  The source takes the max of a nonempty
batch slice; the 0 default is never reached there. -/
def maxNat (l : List Nat) : Nat := l.foldr max 0

lemma le_maxNat (l : List Nat) (x : Nat) (hx : x ∈ l) : x ≤ maxNat l := by
  induction l with
  | nil => cases hx
  | cons a rest ih =>
    rcases List.mem_cons.mp hx with h | h
    · subst h; exact le_max_left _ _
    · exact le_trans (ih h) (le_max_right _ _)

/-- Dataset.build_batch (Data.py lines 239-248): a shard row is a triple
(original position, source length, target length); ldata holds the encoded
(source, target) index sequences.  Each sequence is right-padded with the pad
index up to the batch's local maxima. -/
def build_batch (shard_batch : List (Nat × Nat × Nat))
    (ldata : List (List Nat × List Nat)) (srcIdxPad tgtIdxPad : Nat) :
    List (Nat × List Nat × List Nat) :=
  let maxSrcLen := maxNat (shard_batch.map (fun e => e.2.1))
  let maxTgtLen := maxNat (shard_batch.map (fun e => e.2.2))
  shard_batch.map (fun e =>
    (e.1,
     (ldata.getD e.1 ([], [])).1 ++ List.replicate (maxSrcLen - e.2.1) srcIdxPad,
     (ldata.getD e.1 ([], [])).2 ++ List.replicate (maxTgtLen - e.2.2) tgtIdxPad))

/-- Claim C4: every batch produced by build_batch from consistent shard rows
(each row records a valid position and the true source/target lengths, exactly
as Dataset.__init__ constructs idata) has all padded source rows of one equal
length and all padded target rows of one equal length (the per-batch maxima),
padding is pad-index tokens appended on the right only, and each triple's
unpadded prefix is the original encoded example at its recorded position. -/
theorem claim_c4_batch_invariant (shard_batch : List (Nat × Nat × Nat))
    (ldata : List (List Nat × List Nat)) (srcIdxPad tgtIdxPad : Nat)
    (hrows : ∀ e ∈ shard_batch, e.1 < ldata.length ∧
      e.2.1 = (ldata.getD e.1 ([], [])).1.length ∧
      e.2.2 = (ldata.getD e.1 ([], [])).2.length) :
    ∀ t ∈ build_batch shard_batch ldata srcIdxPad tgtIdxPad,
      t.2.1.length = maxNat (shard_batch.map (fun e => e.2.1)) ∧
      t.2.2.length = maxNat (shard_batch.map (fun e => e.2.2)) ∧
      t.1 < ldata.length ∧
      t.2.1 = (ldata.getD t.1 ([], [])).1 ++
        List.replicate (maxNat (shard_batch.map (fun e => e.2.1)) -
          (ldata.getD t.1 ([], [])).1.length) srcIdxPad ∧
      t.2.2 = (ldata.getD t.1 ([], [])).2 ++
        List.replicate (maxNat (shard_batch.map (fun e => e.2.2)) -
          (ldata.getD t.1 ([], [])).2.length) tgtIdxPad := by
  intro t ht
  unfold build_batch at ht
  simp only [List.mem_map] at ht
  obtain ⟨e, he, rfl⟩ := ht
  obtain ⟨hp, hs, htg⟩ := hrows e he
  have hsle : e.2.1 ≤ maxNat (shard_batch.map (fun e => e.2.1)) :=
    le_maxNat _ _ (List.mem_map_of_mem _ he)
  have htle : e.2.2 ≤ maxNat (shard_batch.map (fun e => e.2.2)) :=
    le_maxNat _ _ (List.mem_map_of_mem _ he)
  refine ⟨?_, ?_, hp, ?_, ?_⟩
  · rw [List.length_append, List.length_replicate, ← hs]
    omega
  · rw [List.length_append, List.length_replicate, ← htg]
    omega
  · rw [hs]
  · rw [htg]

/-- Concrete shard rows for the claim C4 witness. -/
def c4sb : List (Nat × Nat × Nat) := [(0, 2, 3), (1, 4, 2)]

/-- Concrete encoded examples for the claim C4 witness. -/
def c4ld : List (List Nat × List Nat) := [([5, 6], [7, 8, 9]), ([1, 2, 3, 4], [5, 6])]

/-- The first triple that build_batch produces from c4sb and c4ld. -/
def c4t : Nat × List Nat × List Nat := (0, [5, 6, 0, 0], [7, 8, 9])

/-- Witness for claim C4: in the concrete batch, the length-2 source sequence
is padded with two pad tokens up to the batch-wide maximum 4. -/
theorem claim_c4_batch_invariant_witness :
    c4t.2.1.length = maxNat (c4sb.map (fun e => e.2.1)) ∧
    c4t.2.2.length = maxNat (c4sb.map (fun e => e.2.2)) ∧
    c4t.1 < c4ld.length ∧
    c4t.2.1 = (c4ld.getD c4t.1 ([], [])).1 ++
      List.replicate (maxNat (c4sb.map (fun e => e.2.1)) -
        (c4ld.getD c4t.1 ([], [])).1.length) 0 ∧
    c4t.2.2 = (c4ld.getD c4t.1 ([], [])).2 ++
      List.replicate (maxNat (c4sb.map (fun e => e.2.2)) -
        (c4ld.getD c4t.1 ([], [])).2.length) 0 :=
  claim_c4_batch_invariant c4sb c4ld 0 0 (by decide) c4t (by decide)

/-- The per-file reading loop of Dataset.__init__ (Data.py lines 170-182 for
the source side).  Tokenization is the external tokenizer's output, so each
line arrives as a list of token strings; each token is mapped through the
vocabulary, then idx_bos = 2 is prepended and idx_eos = 3 appended — never any
padding.  After the loop, the diagnostics call formats the loop variable i and
the expression 100.0*nunks/ntokens: with zero lines the loop variable was
never bound (fatal UnboundLocalError), and with zero tokens the float division
raises ZeroDivisionError. -/
def readSide (vocab : VocabState) (lines : List (List String)) :
    Except String (List (List Nat) × Nat × Nat) :=
  let enc := lines.map (fun toks => (2 :: toks.map (fun w => vocabGetIdx vocab w)) ++ [3])
  let ntokens := (lines.map List.length).sum
  let nunks := (lines.map
    (fun toks => (toks.filter (fun w => vocabGetIdx vocab w = 1)).length)).sum
  match lines with
  | [] => Except.error "UnboundLocalError: i referenced before assignment"
  | _ :: _ =>
    if ntokens = 0 then Except.error "ZeroDivisionError: float division by zero"
    else Except.ok (enc, ntokens, nunks)

/-- Python range(0, len, k) slicing (Data.py lines 219-220 and 228-229):
successive chunks of k consecutive elements, the last chunk possibly shorter.
Fuel-based so that it evaluates by kernel reduction; l.length iterations always
suffice for k ≥ 1, and the source only reaches this with k ≥ 1. -/
def chunksOfAux {α : Type _} (fuel : Nat) (k : Nat) (l : List α) : List (List α) :=
  match fuel with
  | 0 => []
  | fuel + 1 =>
    match l with
    | [] => []
    | _ :: _ => l.take k :: chunksOfAux fuel k (l.drop k)

def chunksOf {α : Type _} (k : Nat) (l : List α) : List (List α) :=
  if k = 0 then [] else chunksOfAux l.length k l

/-- The shard sort order (Data.py line 221, key=itemgetter(1, 2)): ascending
lexicographic on (source length, target length), stable on ties. -/
def shardLe (a b : Nat × Nat × Nat) : Prop :=
  a.2.1 < b.2.1 ∨ (a.2.1 = b.2.1 ∧ a.2.2 ≤ b.2.2)

instance : DecidableRel shardLe := fun a b => by unfold shardLe; infer_instance

/-- Python's stable sorted() on one shard, as a stable insertion sort. -/
def sortShard (shard : List (Nat × Nat × Nat)) : List (Nat × Nat × Nat) :=
  List.insertionSort shardLe shard

/-- Dataset.__init__ without a cache file (Data.py lines 160-237).  The two
np.random.shuffle calls are external randomness, passed in as shuffleExamples
and shuffleBatches (in-place permutations, so they leave lengths unchanged);
the tokenizer is external, so each corpus arrives as token lists per line; the
pad index of both vocabularies is the constant 0 (Data.py line 46).  The
target-side loop (lines 189-207) additionally raises on a line index at or
past the source count, on a shorter target file after the loop, on an empty
target file (unbound loop variable), and on a zero token count (diagnostics
division). -/
def datasetInit (shuffleExamples : List (Nat × Nat × Nat) → List (Nat × Nat × Nat))
    (shuffleBatches :
      List (List (Nat × List Nat × List Nat)) → List (List (Nat × List Nat × List Nat)))
    (vocabSrc vocabTgt : VocabState) (srcLines tgtLines : List (List String))
    (shard_size batch_size : Nat) :
    Except String (List (List (Nat × List Nat × List Nat))) :=
  match readSide vocabSrc srcLines with
  | Except.error e => Except.error e
  | Except.ok (encSrc, _, _) =>
    if tgtLines.length > srcLines.length then
      Except.error "Different number of lines in parallel data set"
    else if tgtLines = [] then
      Except.error "UnboundLocalError: i referenced before assignment"
    else if tgtLines.length < srcLines.length then
      Except.error "Different number of lines in parallel data set"
    else if (tgtLines.map List.length).sum = 0 then
      Except.error "ZeroDivisionError: float division by zero"
    else
      let encTgt := tgtLines.map
        (fun toks => (2 :: toks.map (fun w => vocabGetIdx vocabTgt w)) ++ [3])
      let ldata := encSrc.zip encTgt
      let idata := (List.range srcLines.length).map
        (fun i => (i, (encSrc.getD i []).length, (encTgt.getD i []).length))
      let idata2 := shuffleExamples idata
      let ssize := if shard_size = 0 then idata2.length else shard_size
      let shards := (chunksOf ssize idata2).map sortShard
      let batches := (shards.map (fun shard =>
        (chunksOf batch_size shard).map (fun g => build_batch g ldata 0 0))).join
      Except.ok (shuffleBatches batches)

/-- The reserved-symbols-only vocabulary, the state Vocab.read produces from a
file holding exactly the five reserved lines. -/
def vocab5 : VocabState :=
  { idx_to_tok := reserved5,
    tok_to_idx := [("<sep>", 4), ("<eos>", 3), ("<bos>", 2), ("<unk>", 1), ("<pad>", 0)] }

/-- Counterexample to claim C5 as stated: building the Dataset from empty
parallel input (both corpora with zero lines) does not yield an empty batch
collection — the source-side diagnostics reference the loop variable that the
empty loop never bound, a fatal error. -/
theorem claim_c5_counterexample :
    datasetInit id id vocab5 vocab5 [] [] 0 2
      = Except.error "UnboundLocalError: i referenced before assignment" := by
  rfl

/-- Claim C5, amended: building the Dataset from empty parallel input raises a
fatal error (the post-loop diagnostics reference the unbound loop variable,
and on nonempty token-free input they divide by zero) instead of yielding an
empty batch collection; on nonempty input the batch builder raises no error of
its own, e.g. a one-pair corpus yields exactly its single batch. -/
theorem claim_c5_empty_input_errors :
    datasetInit id id vocab5 vocab5 [] [] 0 2
        = Except.error "UnboundLocalError: i referenced before assignment" ∧
    datasetInit id id vocab5 vocab5 [["a"]] [["b"]] 0 2
        = Except.ok [[(0, [2, 1, 3], [2, 1, 3])]] := by
  exact ⟨rfl, rfl⟩

/-! ### prepare_input (Learning.py lines 12-23) -/

/-- The longest sequence length in a batch. -/
def maxLen (seqs : List (List Nat)) : Nat := maxNat (seqs.map List.length)

/-- torch.nn.utils.rnn.pad_sequence with batch_first=True: every sequence is
right-padded with padding_value up to the longest sequence's length. -/
def padSequence (seqs : List (List Nat)) (padIdx : Nat) : List (List Nat) :=
  seqs.map (fun s => s ++ List.replicate (maxLen seqs - s.length) padIdx)

/-- prepare_input with batch_tgt present (Learning.py lines 12-23): src is the
padded source batch as is; tgt drops each target's final token (seq[:-1],
deleting eos) before padding; ref drops each target's first token (seq[1:],
deleting bos) before padding. -/
def prepare_input (batch_src batch_tgt : List (List Nat)) (idx_pad : Nat) :
    List (List Nat) × List (List Nat) × List (List Nat) :=
  (padSequence batch_src idx_pad,
   padSequence (batch_tgt.map List.dropLast) idx_pad,
   padSequence (batch_tgt.map (List.drop 1)) idx_pad)

/-- Entry (b, j) of a 2-d tensor stored as a list of rows. -/
def get2 (m : List (List Nat)) (b j : Nat) : Nat := (m.getD b []).getD j 0

/-- msk_src (Learning.py line 21): true exactly where the padded source
tensor differs from the pad index; unsqueeze(-2) only adds the broadcast axis
and changes no values. -/
def msk_src (batch_src : List (List Nat)) (idx_pad b j : Nat) : Bool :=
  get2 (padSequence batch_src idx_pad) b j != idx_pad

/-- torch.triu(torch.ones(1, L, L), diagonal=1) at entry (i, j). -/
def triuOnes (i j : Nat) : Nat := if i + 1 ≤ j then 1 else 0

/-- msk_tgt (Learning.py line 22): the non-pad test on the target input
tensor (broadcast along the query axis by unsqueeze(-2)) conjoined with the
complemented strict upper triangle, cast to bool (nonzero means true). -/
def msk_tgt (batch_tgt : List (List Nat)) (idx_pad b i j : Nat) : Bool :=
  (get2 (padSequence (batch_tgt.map List.dropLast) idx_pad) b j != idx_pad) &&
  (1 - triuOnes i j != 0)

lemma getD_map_of_lt {α β : Type _} (f : α → β) (l : List α) (b : Nat) (d : β)
    (e : α) (hb : b < l.length) : (l.map f).getD b d = f (l.getD b e) := by
  induction l generalizing b with
  | nil => simp at hb
  | cons hd tl ih =>
    cases b with
    | zero => rfl
    | succ b => exact ih b (Nat.lt_of_succ_lt_succ hb)

/-- Claim C10: for every batch, prepare_input builds the network's target
input by removing each target sequence's final token, and the reference by
removing its first token, both right-padded with the pad index; msk_src is
true exactly at the non-pad positions of the padded source tensor; and
msk_tgt at (i, j) is true exactly when target-input position j is non-pad and
j is at most i. -/
theorem claim_c10_prepare_input (batch_src batch_tgt : List (List Nat))
    (idx_pad : Nat) (b i j : Nat) (hb : b < batch_tgt.length) :
    (prepare_input batch_src batch_tgt idx_pad).2.1.getD b []
        = (batch_tgt.getD b []).dropLast ++
          List.replicate (maxLen (batch_tgt.map List.dropLast)
            - (batch_tgt.getD b []).dropLast.length) idx_pad ∧
    (prepare_input batch_src batch_tgt idx_pad).2.2.getD b []
        = (batch_tgt.getD b []).drop 1 ++
          List.replicate (maxLen (batch_tgt.map (List.drop 1))
            - ((batch_tgt.getD b []).drop 1).length) idx_pad ∧
    (msk_src batch_src idx_pad b j = true
        ↔ get2 (prepare_input batch_src batch_tgt idx_pad).1 b j ≠ idx_pad) ∧
    (msk_tgt batch_tgt idx_pad b i j = true
        ↔ (get2 (prepare_input batch_src batch_tgt idx_pad).2.1 b j ≠ idx_pad ∧ j ≤ i)) := by
  refine ⟨?_, ?_, ?_, ?_⟩
  · have hb1 : b < (batch_tgt.map List.dropLast).length := by simpa using hb
    show (padSequence (batch_tgt.map List.dropLast) idx_pad).getD b [] = _
    unfold padSequence
    rw [getD_map_of_lt _ _ b [] [] hb1, getD_map_of_lt _ _ b [] [] hb]
  · have hb1 : b < (batch_tgt.map (List.drop 1)).length := by simpa using hb
    show (padSequence (batch_tgt.map (List.drop 1)) idx_pad).getD b [] = _
    unfold padSequence
    rw [getD_map_of_lt _ _ b [] [] hb1, getD_map_of_lt _ _ b [] [] hb]
  · unfold msk_src prepare_input
    simp [bne_iff_ne]
  · unfold msk_tgt prepare_input triuOnes
    by_cases hij : i + 1 ≤ j
    · simp [hij, bne_iff_ne]
      omega
    · simp [hij, bne_iff_ne]
      omega

/-- Concrete source batch for the claim C10 witness. -/
def c10src : List (List Nat) := [[2, 5, 3]]

/-- Concrete target batch for the claim C10 witness. -/
def c10tgt : List (List Nat) := [[2, 6, 3]]

/-- Witness for claim C10 at a concrete one-example batch, with query
position i = 1 and key position j = 0. -/
theorem claim_c10_prepare_input_witness :
    (prepare_input c10src c10tgt 0).2.1.getD 0 []
        = (c10tgt.getD 0 []).dropLast ++
          List.replicate (maxLen (c10tgt.map List.dropLast)
            - (c10tgt.getD 0 []).dropLast.length) 0 ∧
    (prepare_input c10src c10tgt 0).2.2.getD 0 []
        = (c10tgt.getD 0 []).drop 1 ++
          List.replicate (maxLen (c10tgt.map (List.drop 1))
            - ((c10tgt.getD 0 []).drop 1).length) 0 ∧
    (msk_src c10src 0 0 0 = true
        ↔ get2 (prepare_input c10src c10tgt 0).1 0 0 ≠ 0) ∧
    (msk_tgt c10tgt 0 0 1 0 = true
        ↔ (get2 (prepare_input c10src c10tgt 0).2.1 0 0 ≠ 0 ∧ 0 ≤ 1)) :=
  claim_c10_prepare_input c10src c10tgt 0 0 1 0 (by decide)

/-! ### Checkpoint naming, retention and loading
(transformer/Model.py, save_checkpoint lines 32-40, load_checkpoint 42-56)

File names are Python strings; they are modelled as their character-code
lists, with Python's lexicographic string comparison. -/

/-- The literal ".checkpoint_" of the file-name pattern. -/
def ckptLit : List Nat := ".checkpoint_".data.map Char.toNat

/-- The literal ".pt" of the file-name pattern. -/
def ptLit : List Nat := ".pt".data.map Char.toNat

/-- The digit-code list of Python "{:08d}".format(step) for step below 10^k:
k fixed digits, most significant first, each the code 48 + digit. -/
def digitsFW : Nat → Nat → List Nat
  | 0, _ => []
  | k + 1, n => (48 + n / 10 ^ k % 10) :: digitsFW k (n % 10 ^ k)

/-- The checkpoint file name "{suffix}.checkpoint_{:08d}.pt" (Model.py
line 34). -/
def ckptName (suffix : List Nat) (step : Nat) : List Nat :=
  suffix ++ ckptLit ++ digitsFW 8 step ++ ptLit

/-- Lexicographic strict comparison of code lists: Python's < on strings. -/
def lexLt : List Nat → List Nat → Bool
  | [], [] => false
  | [], _ :: _ => true
  | _ :: _, [] => false
  | a :: as, b :: bs => if a < b then true else if a = b then lexLt as bs else false

/-- The total order Python's sorted() uses on file names. -/
def lexLe (a b : List Nat) : Prop := lexLt b a = false

instance : DecidableRel lexLe := fun a b => by unfold lexLe; infer_instance

lemma lexLt_irrefl : ∀ (l : List Nat), lexLt l l = false := by
  intro l
  induction l with
  | nil => rfl
  | cons a as ih => simp [lexLt, ih]

lemma lexLt_asymm : ∀ (a b : List Nat), lexLt a b = true → lexLt b a = false := by
  intro a
  induction a with
  | nil =>
    intro b hb
    cases b with
    | nil => simp [lexLt] at hb
    | cons y ys => simp [lexLt]
  | cons x xs ih =>
    intro b hb
    cases b with
    | nil => simp [lexLt] at hb
    | cons y ys =>
      simp only [lexLt] at hb ⊢
      by_cases hxy : x < y
      · have h1 : ¬ y < x := by omega
        have h2 : ¬ y = x := by omega
        simp [h1, h2]
      · by_cases hxe : x = y
        · subst hxe
          simp [hxy] at hb
          simp [hxy, ih ys hb]
        · simp [hxy, hxe] at hb

lemma lexLt_eq_of_not : ∀ (a b : List Nat),
    lexLt a b = false → lexLt b a = false → a = b := by
  intro a
  induction a with
  | nil =>
    intro b h1 h2
    cases b with
    | nil => rfl
    | cons y ys => simp [lexLt] at h1
  | cons x xs ih =>
    intro b h1 h2
    cases b with
    | nil => simp [lexLt] at h2
    | cons y ys =>
      simp only [lexLt] at h1 h2
      by_cases hxy : x < y
      · simp [hxy] at h1
      · by_cases hyx : y < x
        · simp [hyx] at h2
        · have hxe : x = y := by omega
          subst hxe
          simp [hxy] at h1 h2
          rw [ih ys h1 h2]

lemma lexLt_trans : ∀ (a b c : List Nat),
    lexLt a b = true → lexLt b c = true → lexLt a c = true := by
  intro a
  induction a with
  | nil =>
    intro b c hab hbc
    cases b with
    | nil => simp [lexLt] at hab
    | cons y ys =>
      cases c with
      | nil => simp [lexLt] at hbc
      | cons z zs => simp [lexLt]
  | cons x xs ih =>
    intro b c hab hbc
    cases b with
    | nil => simp [lexLt] at hab
    | cons y ys =>
      cases c with
      | nil => simp [lexLt] at hbc
      | cons z zs =>
        simp only [lexLt] at hab hbc ⊢
        by_cases hxy : x < y
        · by_cases hyz : y < z
          · simp [show x < z by omega]
          · by_cases hye : y = z
            · subst hye
              simp [hxy]
            · simp [hyz, hye] at hbc
        · by_cases hxe : x = y
          · subst hxe
            simp [hxy] at hab
            by_cases hyz : x < z
            · simp [hyz]
            · by_cases hye : x = z
              · subst hye
                simp [hyz] at hbc
                simp [hyz, ih ys zs hab hbc]
              · simp [hyz, hye] at hbc
          · simp [hxy, hxe] at hab

lemma lexLe_refl (a : List Nat) : lexLe a a := lexLt_irrefl a

lemma lexLe_antisymm (a b : List Nat) (h1 : lexLe a b) (h2 : lexLe b a) : a = b :=
  lexLt_eq_of_not a b h2 h1

instance : IsTotal (List Nat) lexLe := by
  constructor
  intro a b
  by_cases h : lexLt b a = true
  · right
    exact lexLt_asymm b a h
  · left
    exact Bool.eq_false_iff.mpr h

instance : IsTrans (List Nat) lexLe := by
  constructor
  intro a b c h1 h2
  unfold lexLe at h1 h2 ⊢
  by_cases hca : lexLt c a = true
  · exfalso
    by_cases hcb : lexLt c b = true
    · rw [hcb] at h2; cases h2
    · by_cases hbc : lexLt b c = true
      · have := lexLt_trans b c a hbc hca
        rw [this] at h1; cases h1
      · have hbe : b = c :=
          lexLt_eq_of_not b c (Bool.eq_false_iff.mpr hbc) (Bool.eq_false_iff.mpr hcb)
        subst hbe
        rw [hca] at h1; cases h1
  · exact Bool.eq_false_iff.mpr hca

/-- Python's sorted() on the glob result (Model.py lines 36 and 44), as a
stable insertion sort under the string order. -/
def sortLex (files : List (List Nat)) : List (List Nat) :=
  List.insertionSort lexLe files

/-- fnmatch against suffix + ".checkpoint_????????.pt" (the glob pattern of
Model.py lines 36 and 44): the literal head and tail, with exactly eight
arbitrary non-slash characters in between. -/
def globMatch (suffix f : List Nat) : Bool :=
  (f.length == suffix.length + 23) &&
  (f.take (suffix.length + 12) == suffix ++ ckptLit) &&
  ((f.drop (suffix.length + 12)).take 8).all (fun c => c != 47) &&
  (f.drop (suffix.length + 20) == ptLit)

/-- save_checkpoint (Model.py lines 32-40) acting on the checkpoint
directory's duplicate-free file-name list: torch.save writes (or overwrites)
the step's file, then the ascending-sorted glob matches are removed oldest
first while more than keep_last_n remain.  The while loop pops the head of the
sorted list each iteration, so it removes exactly the first
(length - keep_last_n) entries when keep_last_n > 0 and nothing when
keep_last_n = 0. -/
def save_checkpoint (suffix : List Nat) (step keep_last_n : Nat)
    (fs : List (List Nat)) : List (List Nat) :=
  let fs1 := if ckptName suffix step ∈ fs then fs else fs ++ [ckptName suffix step]
  let files := sortLex (fs1.filter (fun f => globMatch suffix f))
  let removed := if keep_last_n = 0 then [] else files.take (files.length - keep_last_n)
  fs1.filter (fun f => f ∉ removed)

/-- load_checkpoint (Model.py lines 42-56): sort the glob matches and select
the last (the newest); no match at all is fatal. -/
def load_checkpoint (suffix : List Nat) (fs : List (List Nat)) :
    Except String (List Nat) :=
  match (sortLex (fs.filter (fun f => globMatch suffix f))).getLast? with
  | none => Except.error "No checkpoint found"
  | some f => Except.ok f

lemma digitsFW_length (k : Nat) : ∀ (n : Nat), (digitsFW k n).length = k := by
  induction k with
  | zero => intro n; rfl
  | succ k ih => intro n; simp [digitsFW, ih]

lemma digitsFW_ge (k : Nat) : ∀ (n c : Nat), c ∈ digitsFW k n → 48 ≤ c := by
  induction k with
  | zero => intro n c hc; simp [digitsFW] at hc
  | succ k ih =>
    intro n c hc
    simp only [digitsFW, List.mem_cons] at hc
    rcases hc with h | h
    · omega
    · exact ih _ _ h

lemma digitsFW_lt (k : Nat) :
    ∀ (n m : Nat), n < m → m < 10 ^ k →
      lexLt (digitsFW k n) (digitsFW k m) = true := by
  induction k with
  | zero =>
    intro n m h hm
    simp at hm
    omega
  | succ k ih =>
    intro n m h hm
    have hp : (0 : Nat) < 10 ^ k := Nat.pos_pow_of_pos k (by norm_num)
    have hdle : n / 10 ^ k ≤ m / 10 ^ k := Nat.div_le_div_right (le_of_lt h)
    have hmd : m / 10 ^ k < 10 := by
      apply Nat.div_lt_of_lt_mul
      calc m < 10 ^ (k + 1) := hm
        _ = 10 ^ k * 10 := by ring
    have hnd : n / 10 ^ k < 10 := lt_of_le_of_lt hdle hmd
    by_cases hd : n / 10 ^ k < m / 10 ^ k
    · simp only [digitsFW, lexLt]
      rw [Nat.mod_eq_of_lt hnd, Nat.mod_eq_of_lt hmd]
      rw [if_pos (by omega : 48 + n / 10 ^ k < 48 + m / 10 ^ k)]
    · have hde : n / 10 ^ k = m / 10 ^ k := le_antisymm hdle (Nat.not_lt.mp hd)
      have hn1 := Nat.div_add_mod n (10 ^ k)
      rw [hde] at hn1
      have hm1 := Nat.div_add_mod m (10 ^ k)
      have hlt : n % 10 ^ k < m % 10 ^ k := by omega
      have hmm : m % 10 ^ k < 10 ^ k := Nat.mod_lt _ hp
      simp only [digitsFW, lexLt, hde]
      simpa using ih _ _ hlt hmm

lemma lexLt_append_same : ∀ (p a b : List Nat), lexLt (p ++ a) (p ++ b) = lexLt a b := by
  intro p
  induction p with
  | nil => intro a b; rfl
  | cons x xs ih =>
    intro a b
    simp [lexLt, ih]

lemma lexLt_append_of_lexLt : ∀ (a b x y : List Nat), a.length = b.length →
    lexLt a b = true → lexLt (a ++ x) (b ++ y) = true := by
  intro a
  induction a with
  | nil =>
    intro b x y hl hab
    cases b with
    | nil => simp [lexLt] at hab
    | cons d ds => simp at hl
  | cons c cs ih =>
    intro b x y hl hab
    cases b with
    | nil => simp at hl
    | cons d ds =>
      simp only [lexLt] at hab
      simp only [List.cons_append, lexLt]
      by_cases h1 : c < d
      · simp [h1]
      · by_cases h2 : c = d
        · subst h2
          rw [if_neg (Nat.lt_irrefl c), if_pos rfl] at hab
          rw [if_neg (Nat.lt_irrefl c), if_pos rfl]
          exact ih ds x y (by simpa using hl) hab
        · simp [h1, h2] at hab

/-- The fixed-width zero-padded name ordering: for steps below 10^8 the file
names compare lexicographically exactly as the steps compare numerically. -/
lemma ckptName_lexLt (suffix : List Nat) (s1 s2 : Nat) (h : s1 < s2)
    (h8 : s2 < 10 ^ 8) :
    lexLt (ckptName suffix s1) (ckptName suffix s2) = true := by
  have hsplit : ∀ s : Nat, ckptName suffix s
      = (suffix ++ ckptLit) ++ (digitsFW 8 s ++ ptLit) := by
    intro s
    simp [ckptName, List.append_assoc]
  rw [hsplit s1, hsplit s2, lexLt_append_same]
  exact lexLt_append_of_lexLt _ _ _ _
    (by rw [digitsFW_length, digitsFW_length]) (digitsFW_lt 8 s1 s2 h h8)

lemma ckptLit_length : ckptLit.length = 12 := by decide

lemma ptLit_length : ptLit.length = 3 := by decide

/-- Every generated checkpoint file name matches the glob pattern. -/
lemma globMatch_ckptName (suffix : List Nat) (s : Nat) :
    globMatch suffix (ckptName suffix s) = true := by
  have hd8 : (digitsFW 8 s).length = 8 := digitsFW_length 8 s
  have hname : ckptName suffix s = (suffix ++ ckptLit) ++ (digitsFW 8 s ++ ptLit) := by
    simp [ckptName, List.append_assoc]
  have hlen12 : (suffix ++ ckptLit).length = suffix.length + 12 := by
    simp [List.length_append, ckptLit_length]
  have hlen20 : ((suffix ++ ckptLit) ++ digitsFW 8 s).length = suffix.length + 20 := by
    simp only [List.length_append, ckptLit_length, hd8]
  unfold globMatch
  rw [hname]
  simp only [Bool.and_eq_true, beq_iff_eq, List.all_eq_true]
  refine ⟨⟨⟨?_, ?_⟩, ?_⟩, ?_⟩
  · simp only [List.length_append, ckptLit_length, ptLit_length, hd8]
  · exact List.take_left' hlen12
  · intro c hc
    rw [List.drop_left' hlen12, List.take_left' hd8] at hc
    have h48 := digitsFW_ge 8 s c hc
    simp only [bne_iff_ne, ne_eq]
    omega
  · have hassoc : (suffix ++ ckptLit) ++ (digitsFW 8 s ++ ptLit)
        = ((suffix ++ ckptLit) ++ digitsFW 8 s) ++ ptLit := by
      simp [List.append_assoc]
    rw [hassoc]
    exact List.drop_left' hlen20

lemma sortLex_sorted (l : List (List Nat)) : List.Sorted lexLe (sortLex l) :=
  List.sorted_insertionSort lexLe l

lemma sortLex_perm (l : List (List Nat)) : (sortLex l).Perm l :=
  List.perm_insertionSort lexLe l

/-- In a lexLe-sorted list, the last element dominates every member. -/
lemma sorted_lexLe_getLast :
    ∀ (l : List (List Nat)), List.Sorted lexLe l →
      ∀ (x : List Nat), x ∈ l → ∀ (h : l ≠ []), lexLe x (l.getLast h) := by
  intro l
  induction l with
  | nil => intro _ x hx; simp at hx
  | cons a rest ih =>
    intro hs x hx hne
    cases rest with
    | nil =>
      have hxa : x = a := by simpa using hx
      subst hxa
      exact lexLe_refl x
    | cons b rest2 =>
      rw [List.getLast_cons (by simp : b :: rest2 ≠ [])]
      have hpair := List.pairwise_cons.mp hs
      rcases List.mem_cons.mp hx with rfl | hx2
      · exact hpair.1 _ (List.getLast_mem (by simp))
      · exact ih hpair.2 x hx2 (by simp)

/-- The count of matching files that survive the eviction loop: removing the
first (length - kn) entries of the sorted matching list from the directory
leaves at most kn matching files. -/
lemma evict_filter_length (fs1 : List (List Nat)) (P : List Nat → Bool) (kn : Nat)
    (hnd1 : fs1.Nodup) (hkn : 0 < kn) :
    ((fs1.filter (fun f => f ∉ (sortLex (fs1.filter P)).take
        ((sortLex (fs1.filter P)).length - kn))).filter P).length ≤ kn := by
  set files := sortLex (fs1.filter P) with hfiles
  set k2 := files.length - kn with hk2
  have hndf : files.Nodup := ((sortLex_perm _).nodup_iff).mpr (hnd1.filter P)
  have hsplit : files = files.take k2 ++ files.drop k2 := (List.take_append_drop _ _).symm
  have hnd2 : (files.take k2 ++ files.drop k2).Nodup := by
    rw [← hsplit]
    exact hndf
  have hdisj : (files.take k2).Disjoint (files.drop k2) := (List.nodup_append.mp hnd2).2.2
  have hswap : (fs1.filter (fun f => f ∉ files.take k2)).filter P
      = (fs1.filter P).filter (fun f => f ∉ files.take k2) := by
    rw [List.filter_filter, List.filter_filter]
    apply List.filter_congr
    intro a _
    by_cases hpa : P a = true
    · by_cases hm2 : a ∈ files.take k2 <;> simp [hpa, hm2]
    · have hpa2 : P a = false := Bool.eq_false_iff.mpr hpa
      by_cases hm2 : a ∈ files.take k2 <;> simp [hpa2, hm2]
  have hperm : ((fs1.filter P).filter (fun f => f ∉ files.take k2)).Perm
      (files.filter (fun f => f ∉ files.take k2)) :=
    ((sortLex_perm (fs1.filter P)).filter _).symm
  have hdropfil : files.filter (fun f => f ∉ files.take k2) = files.drop k2 := by
    have hkey : ((files.take k2) ++ (files.drop k2)).filter (fun f => f ∉ files.take k2)
        = files.drop k2 := by
      rw [List.filter_append]
      have h1 : (files.take k2).filter (fun f => f ∉ files.take k2) = [] := by
        apply List.filter_eq_nil.mpr
        intro a ha
        simp [ha]
      have h2 : (files.drop k2).filter (fun f => f ∉ files.take k2) = files.drop k2 := by
        apply List.filter_eq_self.mpr
        intro a ha
        simp only [decide_eq_true_eq]
        exact fun h => hdisj h ha
      rw [h1, h2, List.nil_append]
    rw [List.take_append_drop] at hkey
    exact hkey
  calc ((fs1.filter (fun f => f ∉ files.take k2)).filter P).length
      = ((fs1.filter P).filter (fun f => f ∉ files.take k2)).length := by rw [hswap]
    _ = (files.filter (fun f => f ∉ files.take k2)).length := hperm.length_eq
    _ = (files.drop k2).length := by rw [hdropfil]
    _ ≤ kn := by
        rw [List.length_drop]
        omega

/-- The suffix used in the concrete retention scenario (the string "model"). -/
def mdlSuffix : List Nat := "model".data.map Char.toNat

/-- Saving steps 10, 20, 30, 40 in turn with keep_last_n = 2, starting from an
empty checkpoint directory. -/
def retentionScenario : List (List Nat) :=
  save_checkpoint mdlSuffix 40 2
    (save_checkpoint mdlSuffix 30 2
      (save_checkpoint mdlSuffix 20 2
        (save_checkpoint mdlSuffix 10 2 [])))

/-- Claim C8: checkpoint names use a fixed-width zero-padded decimal step so
that names sort lexicographically in step order (for the 8-digit range of the
format and pattern); after each save the oldest matching files are deleted
until at most keep_last_n remain; saving steps 10, 20, 30, 40 with
keep_last_n = 2 leaves exactly the step-30 and step-40 files; and loading
selects the lexicographically-last matching file. -/
theorem claim_c8_checkpoint_retention :
    (∀ (suffix : List Nat) (s1 s2 : Nat), s1 < s2 → s2 < 10 ^ 8 →
        lexLt (ckptName suffix s1) (ckptName suffix s2) = true) ∧
    retentionScenario = [ckptName mdlSuffix 30, ckptName mdlSuffix 40] ∧
    load_checkpoint mdlSuffix retentionScenario = Except.ok (ckptName mdlSuffix 40) ∧
    (∀ (suffix : List Nat) (fs : List (List Nat)) (f : List Nat),
        f ∈ fs → globMatch suffix f = true →
        (∀ g ∈ fs, globMatch suffix g = true → lexLe g f) →
        load_checkpoint suffix fs = Except.ok f) ∧
    (∀ (suffix : List Nat) (step kn : Nat) (fs : List (List Nat)),
        fs.Nodup → 0 < kn →
        ((save_checkpoint suffix step kn fs).filter
          (fun f => globMatch suffix f)).length ≤ kn) := by
  refine ⟨ckptName_lexLt, by decide, by rfl, ?_, ?_⟩
  · -- loading returns the lexicographic maximum of the matching files
    intro suffix fs f hf hgm hmax
    unfold load_checkpoint
    have hfmem : f ∈ sortLex (fs.filter (fun f => globMatch suffix f)) := by
      rw [(sortLex_perm _).mem_iff]
      exact List.mem_filter.mpr ⟨hf, hgm⟩
    have hne : sortLex (fs.filter (fun f => globMatch suffix f)) ≠ [] :=
      List.ne_nil_of_mem hfmem
    rw [List.getLast?_eq_getLast _ hne]
    have hlast_mem := List.getLast_mem hne
    have hlast_mem2 := (sortLex_perm _).mem_iff.mp hlast_mem
    obtain ⟨hmem, hgm2⟩ := List.mem_filter.mp hlast_mem2
    have h1 : lexLe f (List.getLast _ hne) :=
      sorted_lexLe_getLast _ (sortLex_sorted _) f hfmem hne
    have h2 : lexLe (List.getLast _ hne) f := hmax _ hmem hgm2
    rw [lexLe_antisymm _ _ h2 h1]
  · -- after a save with keep_last_n > 0, at most keep_last_n matches remain
    intro suffix step kn fs hnd hkn
    have hknn : ¬ kn = 0 := Nat.pos_iff_ne_zero.mp hkn
    have hnd1 : (if ckptName suffix step ∈ fs then fs
        else fs ++ [ckptName suffix step]).Nodup := by
      by_cases hmem : ckptName suffix step ∈ fs
      · simpa [hmem] using hnd
      · simp only [hmem, if_false]
        rw [List.nodup_append]
        exact ⟨hnd, List.nodup_singleton _,
          fun a ha hb => hmem ((List.mem_singleton.mp hb) ▸ ha)⟩
    have hstep : save_checkpoint suffix step kn fs
        = (if ckptName suffix step ∈ fs then fs else fs ++ [ckptName suffix step]).filter
            (fun f => f ∉ (sortLex ((if ckptName suffix step ∈ fs then fs
                else fs ++ [ckptName suffix step]).filter
                  (fun f => globMatch suffix f))).take
              ((sortLex ((if ckptName suffix step ∈ fs then fs
                else fs ++ [ckptName suffix step]).filter
                  (fun f => globMatch suffix f))).length - kn)) := by
      unfold save_checkpoint
      simp only [hknn, if_false]
    rw [hstep]
    exact evict_filter_length _ _ kn hnd1 hkn

/-- Witness for claim C8: the name ordering at steps 7 < 12 and the retention
bound after one save into an empty directory with keep_last_n = 1. -/
theorem claim_c8_checkpoint_retention_witness :
    lexLt (ckptName mdlSuffix 7) (ckptName mdlSuffix 12) = true ∧
    ((save_checkpoint mdlSuffix 5 1 []).filter
      (fun f => globMatch mdlSuffix f)).length ≤ 1 :=
  ⟨claim_c8_checkpoint_retention.1 mdlSuffix 7 12 (by norm_num) (by norm_num),
   claim_c8_checkpoint_retention.2.2.2.2 mdlSuffix 5 1 [] List.nodup_nil (by norm_num)⟩

/-! ### Training-loop stop paths (Learning.py, Learning.learn, lines 43-100) -/

/-- The attribute names Learning.__init__ assigns on self (Learning.py lines
29-41).  Python resolves self.name at each use; a name outside this set
raises AttributeError. -/
def learningAttrs : List String :=
  ["model", "optScheduler", "criter", "suffix", "max_steps", "max_epochs",
   "validate_every", "save_every", "report_every", "keep_last_n", "clip_grad_norm"]

/-- Python attribute resolution on a Learning instance. -/
def getattrLearning (name : String) : Except String String :=
  if name ∈ learningAttrs then Except.ok name
  else Except.error ("AttributeError: " ++ name)

/-- The stop-by-max-steps branch (Learning.py lines 87-91): when max_steps is
truthy (nonzero) and the step counter has reached it, validate (when a
validation set exists), then call save_checkpoint — whose argument list
evaluates self.suffix, self.model, self.OptScheduler.optimizer,
self.optScheduler._step, self.keep_last_n from left to right — and return.
Yields the actions performed, or the exception raised. -/
def stopByMaxSteps (max_steps step : Nat) (hasValidset : Bool) :
    Option (Except String (List String)) :=
  if max_steps ≠ 0 ∧ step ≥ max_steps then
    some (do
      let acts := if hasValidset then ["validate"] else []
      let _ ← getattrLearning "suffix"
      let _ ← getattrLearning "model"
      let _ ← getattrLearning "OptScheduler"
      let _ ← getattrLearning "optScheduler"
      let _ ← getattrLearning "keep_last_n"
      Except.ok (acts ++ ["save_checkpoint"]))
  else none

/-- The stop-by-max-epochs branch (Learning.py lines 95-99): the same final
validate-and-save, with every attribute spelled as __init__ assigned it. -/
def stopByMaxEpochs (max_epochs epoch : Nat) (hasValidset : Bool) :
    Option (Except String (List String)) :=
  if max_epochs ≠ 0 ∧ epoch ≥ max_epochs then
    some (do
      let acts := if hasValidset then ["validate"] else []
      let _ ← getattrLearning "suffix"
      let _ ← getattrLearning "model"
      let _ ← getattrLearning "optScheduler"
      let _ ← getattrLearning "keep_last_n"
      Except.ok (acts ++ ["save_checkpoint"]))
  else none

/-- Claim C2 exhibits a code bug: when the step counter reaches max_steps the
loop runs the final validation, but the checkpoint-save call then evaluates
self.OptScheduler — an attribute Learning.__init__ never assigns (it assigns
optScheduler, Learning.py line 32) — so the branch raises AttributeError
before saving, instead of saving through the same optimizer reference used
elsewhere and terminating without error.  The analogous max_epochs stop path,
which spells the attribute correctly, performs validate and save. -/
theorem claim_c2_max_steps_stop_raises :
    stopByMaxSteps 1 1 true = some (Except.error "AttributeError: OptScheduler") ∧
    stopByMaxEpochs 1 1 true = some (Except.ok ["validate", "save_checkpoint"]) ∧
    "optScheduler" ∈ learningAttrs ∧ "OptScheduler" ∉ learningAttrs := by
  exact ⟨rfl, rfl, by decide, by decide⟩

/-! ### The attention network over exact reals
(transformer/Model.py: AddPositionalEncoding lines 273-287, MultiHead_Attn
lines 210-250, FeedForward lines 255-268, Decoder lines 186-204)

Float tensors are modelled as exact reals; a tensor of shape [bs, l, d] is a
function of (batch index, position, dimension).  Dropout layers are modelled
in evaluation mode (identity), which is where the indexing and sharing claims
live. -/

/-- A [batch, length, dim] tensor. -/
abbrev Tensor3 := Nat → Nat → Nat → ℝ

/-- div_term (Model.py line 279): exp((2j) * (-log 10000 / emb_dim)). -/
noncomputable def divTerm (emb_dim j : Nat) : ℝ :=
  Real.exp (((2 * j : Nat) : ℝ) * (-(Real.log 10000) / (emb_dim : ℝ)))

/-- The precomputed sinusoidal table pe before reshaping (Model.py lines
277-281): row p holds sin(p * div_term j) at even dimension 2j and
cos(p * div_term j) at odd dimension 2j + 1. -/
noncomputable def peTable (emb_dim p i : Nat) : ℝ :=
  if i % 2 = 0 then Real.sin ((p : ℝ) * divTerm emb_dim (i / 2))
  else Real.cos ((p : ℝ) * divTerm emb_dim (i / 2))

/-- AddPositionalEncoding.forward in evaluation mode (Model.py lines 285-287).
After unsqueeze(0).transpose(0, 1) the registered buffer pe has shape
[max_len, 1, emb_dim], so pe[:x.size(0), :] slices the first
x.size(0) = batch-size rows, and broadcasting the resulting [bs, 1, emb_dim]
buffer against the batch-first input x of shape [bs, ls, emb_dim] — the shape
Encoder_Decoder.forward passes in (Model.py lines 104-110) — adds the table
row indexed by the batch position b, the same row at every sequence position
of example b: (x + pe[:bs])[b, p, i] = x[b, p, i] + peTable(b, i). -/
noncomputable def addPosEnc (emb_dim : Nat) (x : Tensor3) : Tensor3 :=
  fun b p i => x b p i + peTable emb_dim b i

/-- Claim C1 exhibits a code bug: the sinusoidal table is indexed by the batch
position, not the sequence position.  In a 2-dimensional embedding the
frequency of dimension 0 is div_term(0) = 1, so the claim requires the vector
added at sequence position p to have dimension 0 equal to sin p.  Instead, for
example 0 the quantity added at sequence position 1, dimension 0 is
sin 0 = 0 — yet sin 1 is nonzero — and for example 1 the quantity added at
sequence position 0 is sin 1, not sin 0. -/
theorem claim_c1_positional_encoding_bug :
    (∀ x : Tensor3, addPosEnc 2 x 0 1 0 - x 0 1 0 = 0) ∧
    (∀ x : Tensor3, addPosEnc 2 x 1 0 0 - x 1 0 0 = Real.sin 1) ∧
    Real.sin 1 ≠ 0 := by
  have hdt : divTerm 2 0 = 1 := by
    simp [divTerm]
  refine ⟨?_, ?_, ?_⟩
  · intro x
    simp [addPosEnc, peTable]
  · intro x
    simp [addPosEnc, peTable, hdt]
  · have h : 0 < Real.sin 1 :=
      Real.sin_pos_of_pos_of_lt_pi (by norm_num) (by linarith [Real.pi_gt_three])
    exact ne_of_gt h

/-- The parameters of torch.nn.Linear(inDim, outDim): a weight matrix indexed
[output, input] and a bias vector. -/
structure LinearParams where
  weight : Nat → Nat → ℝ
  bias : Nat → ℝ

/-- y = W x + b over the first inDim input coordinates. -/
noncomputable def linearForward (p : LinearParams) (inDim : Nat) (x : Nat → ℝ) :
    Nat → ℝ :=
  fun o => (∑ e in Finset.range inDim, p.weight o e * x e) + p.bias o

/-- MultiHead_Attn's state (Model.py lines 210-222): head count, per-head
query/key dimensions (qd = kd = qk_dim), per-head value dimension, embedding
dimension, and the four projections WQ, WK, WV, WO. -/
structure MultiHead_Attn where
  nh : Nat
  qd : Nat
  kd : Nat
  vd : Nat
  ed : Nat
  WQ : LinearParams
  WK : LinearParams
  WV : LinearParams
  WO : LinearParams

/-- Softmax along a length-n axis. -/
noncomputable def softmaxR (n : Nat) (s : Nat → ℝ) : Nat → ℝ :=
  fun j => Real.exp (s j) / ∑ t in Finset.range n, Real.exp (s t)

/-- MultiHead_Attn.forward in evaluation mode (Model.py lines 224-250).  The
reshape [bs, sl, nh*qd] -> [bs, sl, nh, qd] -> [bs, nh, sl, qd] makes head h,
coordinate d of a projection its output feature h*qd + d; scores are scaled
dot products over the qd per-head coordinates, divided by kd ** 0.5; where the
(already head-broadcast) mask is false the score is replaced by -1e9
(masked_fill); softmax runs along the key axis of length slk; the weighted
values are concatenated across heads (coordinate c of the concatenation is
head c / vd, coordinate c % vd) and projected through WO. -/
noncomputable def mhAttnForward (m : MultiHead_Attn) (slk : Nat)
    (q k v : Tensor3) (msk : Option (Nat → Nat → Nat → Bool)) : Tensor3 :=
  let Q := fun b h i d => linearForward m.WQ m.ed (q b i) (h * m.qd + d)
  let K := fun b h j d => linearForward m.WK m.ed (k b j) (h * m.kd + d)
  let V := fun b h j d => linearForward m.WV m.ed (v b j) (h * m.vd + d)
  let score := fun b h i j =>
    (∑ d in Finset.range m.qd, Q b h i d * K b h j d) / Real.sqrt (m.kd : ℝ)
  let masked := fun b h i j =>
    match msk with
    | none => score b h i j
    | some mk => if mk b i j then score b h i j else -(10 ^ 9 : ℝ)
  let w := fun b h i => softmaxR slk (masked b h i)
  let z := fun b i c =>
    ∑ j in Finset.range slk, w b (c / m.vd) i j * V b (c / m.vd) j (c % m.vd)
  fun b i e => linearForward m.WO (m.nh * m.vd) (z b i) e

/-- torch.nn.LayerNorm(emb_dim, eps=1e-6) parameters. -/
structure LayerNormParams where
  gamma : Nat → ℝ
  beta : Nat → ℝ

/-- LayerNorm along the last axis of length d with eps = 1e-6. -/
noncomputable def layerNormForward (p : LayerNormParams) (d : Nat) (x : Nat → ℝ) :
    Nat → ℝ :=
  let mu := (∑ e in Finset.range d, x e) / (d : ℝ)
  let sigma2 := (∑ e in Finset.range d, (x e - mu) ^ 2) / (d : ℝ)
  fun e => p.gamma e * ((x e - mu) / Real.sqrt (sigma2 + 1 / 1000000)) + p.beta e

/-- FeedForward's state (Model.py lines 255-260). -/
structure FeedForward where
  ed : Nat
  ff : Nat
  FF_in : LinearParams
  FF_out : LinearParams

/-- FeedForward.forward in evaluation mode (Model.py lines 262-268): linear,
ReLU, linear; the two dropouts are identity. -/
noncomputable def feedForwardForward (p : FeedForward) (x : Nat → ℝ) : Nat → ℝ :=
  let t1 := linearForward p.FF_in p.ed x
  let t2 := fun o => max (t1 o) 0
  linearForward p.FF_out p.ff t2

/-- A decoder layer's state (Model.py lines 186-193): one feedforward, ONE
multi-head attention module (__init__ creates a single MultiHead_Attn and
stores it as self.multihead_attn), and three layer norms. -/
structure Decoder where
  feedforward : FeedForward
  multihead_attn : MultiHead_Attn
  norm_att1 : LayerNormParams
  norm_att2 : LayerNormParams
  norm_ff : LayerNormParams

/-- Decoder.forward (Model.py lines 195-204) with the attention parameters of
its two call sites abstracted: attnSelf serves the self-attention call (query,
key and value all the normalized running target, mask msk_tgt), attnCross the
cross-attention call (query the normalized running target, key and value the
encoder output z_src, mask msk_src broadcast along the query axis), each
followed by a residual add, then the feed-forward block with its residual. -/
noncomputable def decoderForwardWith (attnSelf attnCross : MultiHead_Attn)
    (ffp : FeedForward) (n1 n2 n3 : LayerNormParams) (emb_dim ls lt : Nat)
    (z_src tgt : Tensor3) (msk_src : Nat → Nat → Bool)
    (msk_tgt : Nat → Nat → Nat → Bool) : Tensor3 :=
  let tgt_norm : Tensor3 := fun b i e => layerNormForward n1 emb_dim (tgt b i) e
  let tmp1 : Tensor3 := fun b i e =>
    mhAttnForward attnSelf lt tgt_norm tgt_norm tgt_norm (some msk_tgt) b i e
      + tgt b i e
  let tmp1_norm : Tensor3 := fun b i e => layerNormForward n2 emb_dim (tmp1 b i) e
  let tmp2 : Tensor3 := fun b i e =>
    mhAttnForward attnCross ls tmp1_norm z_src z_src
      (some (fun b2 _ j => msk_src b2 j)) b i e + tmp1 b i e
  let tmp2_norm : Tensor3 := fun b i e => layerNormForward n3 emb_dim (tmp2 b i) e
  fun b i e => feedForwardForward ffp (tmp2_norm b i) e + tmp2 b i e

/-- The attention parameters the decoder's self-attention call site resolves
(Model.py line 198: self.multihead_attn). -/
def decoderSelfAttn (d : Decoder) : MultiHead_Attn := d.multihead_attn

/-- The attention parameters the decoder's cross-attention call site resolves
(Model.py line 201: the same self.multihead_attn). -/
def decoderCrossAttn (d : Decoder) : MultiHead_Attn := d.multihead_attn

/-- Decoder.forward as the source executes it: both attention calls dispatch
through the layer's single multihead_attn field. -/
noncomputable def decoderForward (d : Decoder) (emb_dim ls lt : Nat)
    (z_src tgt : Tensor3) (msk_src : Nat → Nat → Bool)
    (msk_tgt : Nat → Nat → Nat → Bool) : Tensor3 :=
  decoderForwardWith (decoderSelfAttn d) (decoderCrossAttn d) d.feedforward
    d.norm_att1 d.norm_att2 d.norm_ff emb_dim ls lt z_src tgt msk_src msk_tgt

/-- Claim C9: in every decoder layer the self-attention call and the
cross-attention call use the same attention module instance, so the query,
key, value and output projection weights used for self-attention are
identical to those used for cross-attention. -/
theorem claim_c9_shared_attention (d : Decoder) (emb_dim ls lt : Nat)
    (z_src tgt : Tensor3) (mskS : Nat → Nat → Bool)
    (mskT : Nat → Nat → Nat → Bool) :
    decoderForward d emb_dim ls lt z_src tgt mskS mskT
      = decoderForwardWith d.multihead_attn d.multihead_attn d.feedforward
          d.norm_att1 d.norm_att2 d.norm_ff emb_dim ls lt z_src tgt mskS mskT ∧
    decoderSelfAttn d = decoderCrossAttn d ∧
    (decoderSelfAttn d).WQ = (decoderCrossAttn d).WQ ∧
    (decoderSelfAttn d).WK = (decoderCrossAttn d).WK ∧
    (decoderSelfAttn d).WV = (decoderCrossAttn d).WV ∧
    (decoderSelfAttn d).WO = (decoderCrossAttn d).WO :=
  ⟨rfl, rfl, rfl, rfl, rfl, rfl⟩

end Loss1
